import Mathlib

/-!
Verification of the kameroon-lib cryptography helper (`src/index.js`).

JavaScript strings are modelled as lists of UTF-16 code units (`List Nat`),
byte buffers (`ArrayBuffer` viewed through `Uint8Array`) as lists of byte
values (`List Nat`).  Browser built-ins that the source calls (`btoa`,
`atob`, `parseInt`, the Web Crypto `subtle` methods) are external to the
repository and are modelled from the spec, as noted on each definition.
-/

namespace Kameroon

/-- `ab2str(buf)`: `String.fromCharCode.apply(null, new Uint8Array(buf))`.
`String.fromCharCode` converts each argument to a 16-bit code unit
(`ToUint16`, i.e. reduction modulo 65536) and makes it one character of the
result string. -/
def ab2str (buf : List Nat) : List Nat :=
  buf.map (fun b => b % 65536)

/-- `str2ab(str)`: allocates a buffer of `str.length` bytes and stores
`str.charCodeAt(i)` into byte `i`; the `Uint8Array` store truncates each
code unit modulo 256. -/
def str2ab (str : List Nat) : List Nat :=
  str.map (fun c => c % 256)

/-- Modelled from the spec: the standard Base64 alphabet position of a
character (code unit), `A`-`Z` at 0-25, `a`-`z` at 26-51, `0`-`9` at
52-61, `+` at 62, `/` at 63; 64 for a character outside the alphabet. -/
def charToSextet (c : Nat) : Nat :=
  if 65 ≤ c ∧ c ≤ 90 then c - 65
  else if 97 ≤ c ∧ c ≤ 122 then c - 97 + 26
  else if 48 ≤ c ∧ c ≤ 57 then c - 48 + 52
  else if c = 43 then 62
  else if c = 47 then 63
  else 64

/-- Modelled from the spec: the character (code unit) at a given position
of the standard Base64 alphabet. -/
def sextetToChar (n : Nat) : Nat :=
  if n < 26 then 65 + n
  else if n < 52 then 97 + (n - 26)
  else if n < 62 then 48 + (n - 52)
  else if n = 62 then 43
  else 47

/-- Modelled from the spec: standard Base64 encoding of a byte sequence,
three bytes to four alphabet characters, with `=` (code 61) padding for a
final group of one or two bytes. -/
def b64encode : List Nat → List Nat
  | [] => []
  | [x] => [sextetToChar (x / 4), sextetToChar (x % 4 * 16), 61, 61]
  | [x, y] => [sextetToChar (x / 4), sextetToChar (x % 4 * 16 + y / 16),
      sextetToChar (y % 16 * 4), 61]
  | x :: y :: z :: rest =>
      sextetToChar (x / 4) :: sextetToChar (x % 4 * 16 + y / 16) ::
      sextetToChar (y % 16 * 4 + z / 64) :: sextetToChar (z % 64) :: b64encode rest

/-- Modelled from the spec: standard Base64 decoding, four characters to
three bytes, `=` padding cutting the final group to one or two bytes.
Behaviour on text that is not well-formed Base64 is not relied upon by any
theorem below (the browser's `atob` throws there). -/
def b64decode : List Nat → List Nat
  | a :: b :: c :: d :: rest =>
      let sa := charToSextet a
      let sb := charToSextet b
      let sc := charToSextet c
      let sd := charToSextet d
      if c = 61 then [sa * 4 + sb / 16]
      else if d = 61 then [sa * 4 + sb / 16, sb % 16 * 16 + sc / 4]
      else (sa * 4 + sb / 16) :: (sb % 16 * 16 + sc / 4) ::
           (sc % 4 * 64 + sd) :: b64decode rest
  | _ => []

/-- Modelled from the spec: `window.btoa`, Base64 encoding of a
"binary string"; it throws (`InvalidCharacterError`, here `none`) when some
character of the input is above 255. -/
def btoa (s : List Nat) : Option (List Nat) :=
  if s.all (fun c => c < 256) then some (b64encode s) else none

/-- Modelled from the spec: `window.atob`, Base64 decoding back to a binary
string. -/
def atob (t : List Nat) : List Nat :=
  b64decode t

/-- `encodeEncryptedMessageAsBase64(encryptedMessage)`:
`window.btoa(ab2str(encryptedMessage))`. -/
def encodeEncryptedMessageAsBase64 (encryptedMessage : List Nat) : Option (List Nat) :=
  btoa (ab2str encryptedMessage)

/-- `decodeBase64EncryptedMessage(base64encodedMessage)`:
`str2ab(window.atob(base64encodedMessage))`. -/
def decodeBase64EncryptedMessage (base64encodedMessage : List Nat) : List Nat :=
  str2ab (atob base64encodedMessage)

theorem charToSextet_sextetToChar : ∀ n, n < 64 → charToSextet (sextetToChar n) = n := by
  decide

theorem sextetToChar_ne_pad : ∀ n, n < 64 → sextetToChar n ≠ 61 := by
  decide

theorem b64_roundtrip :
    ∀ s : List Nat, s.all (fun b => b < 256) = true → b64decode (b64encode s) = s
  | [], _ => rfl
  | [x], h => by
    simp only [List.all_cons, List.all_nil, Bool.and_true, decide_eq_true_eq] at h
    have h1 : charToSextet (sextetToChar (x / 4)) = x / 4 :=
      charToSextet_sextetToChar _ (by omega)
    have h2 : charToSextet (sextetToChar (x % 4 * 16)) = x % 4 * 16 :=
      charToSextet_sextetToChar _ (by omega)
    simp only [b64encode, b64decode, h1, h2, if_pos rfl, if_true, List.cons.injEq, and_true]
    omega
  | [x, y], h => by
    simp only [List.all_cons, List.all_nil, Bool.and_true, Bool.and_eq_true,
      decide_eq_true_eq] at h
    obtain ⟨hx, hy⟩ := h
    have h1 : charToSextet (sextetToChar (x / 4)) = x / 4 :=
      charToSextet_sextetToChar _ (by omega)
    have h2 : charToSextet (sextetToChar (x % 4 * 16 + y / 16)) = x % 4 * 16 + y / 16 :=
      charToSextet_sextetToChar _ (by omega)
    have h3 : charToSextet (sextetToChar (y % 16 * 4)) = y % 16 * 4 :=
      charToSextet_sextetToChar _ (by omega)
    have hne : sextetToChar (y % 16 * 4) ≠ 61 := sextetToChar_ne_pad _ (by omega)
    simp only [b64encode, b64decode, h1, h2, h3, if_neg hne, if_pos rfl, if_true,
      List.cons.injEq, and_true]
    constructor
    · omega
    · omega
  | x :: y :: z :: w :: rest, h => by
    simp only [List.all_cons, Bool.and_eq_true, decide_eq_true_eq] at h
    obtain ⟨hx, hy, hz, hrest⟩ := h
    have ih := b64_roundtrip (w :: rest) (by
      simp only [List.all_cons, Bool.and_eq_true, decide_eq_true_eq]
      exact hrest)
    have h1 : charToSextet (sextetToChar (x / 4)) = x / 4 :=
      charToSextet_sextetToChar _ (by omega)
    have h2 : charToSextet (sextetToChar (x % 4 * 16 + y / 16)) = x % 4 * 16 + y / 16 :=
      charToSextet_sextetToChar _ (by omega)
    have h3 : charToSextet (sextetToChar (y % 16 * 4 + z / 64)) = y % 16 * 4 + z / 64 :=
      charToSextet_sextetToChar _ (by omega)
    have h4 : charToSextet (sextetToChar (z % 64)) = z % 64 :=
      charToSextet_sextetToChar _ (by omega)
    have hne3 : sextetToChar (y % 16 * 4 + z / 64) ≠ 61 := sextetToChar_ne_pad _ (by omega)
    have hne4 : sextetToChar (z % 64) ≠ 61 := sextetToChar_ne_pad _ (by omega)
    simp only [b64encode, b64decode, h1, h2, h3, h4, if_neg hne3, if_neg hne4,
      ih, List.cons.injEq, and_true]
    refine ⟨by omega, by omega, by omega⟩
  | [x, y, z], h => by
    simp only [List.all_cons, List.all_nil, Bool.and_true, Bool.and_eq_true,
      decide_eq_true_eq] at h
    obtain ⟨hx, hy, hz⟩ := h
    have h1 : charToSextet (sextetToChar (x / 4)) = x / 4 :=
      charToSextet_sextetToChar _ (by omega)
    have h2 : charToSextet (sextetToChar (x % 4 * 16 + y / 16)) = x % 4 * 16 + y / 16 :=
      charToSextet_sextetToChar _ (by omega)
    have h3 : charToSextet (sextetToChar (y % 16 * 4 + z / 64)) = y % 16 * 4 + z / 64 :=
      charToSextet_sextetToChar _ (by omega)
    have h4 : charToSextet (sextetToChar (z % 64)) = z % 64 :=
      charToSextet_sextetToChar _ (by omega)
    have hne3 : sextetToChar (y % 16 * 4 + z / 64) ≠ 61 := sextetToChar_ne_pad _ (by omega)
    have hne4 : sextetToChar (z % 64) ≠ 61 := sextetToChar_ne_pad _ (by omega)
    simp only [b64encode, b64decode, h1, h2, h3, h4, if_neg hne3, if_neg hne4,
      List.cons.injEq, and_true]
    refine ⟨by omega, by omega, by omega⟩

theorem ab2str_of_bytes (b : List Nat) (h : b.all (fun v => v < 256) = true) :
    ab2str b = b := by
  induction b with
  | nil => rfl
  | cons x xs ih =>
    simp only [List.all_cons, Bool.and_eq_true, decide_eq_true_eq] at h
    simp only [ab2str, List.map_cons, List.cons.injEq]
    exact ⟨by omega, ih h.2⟩

theorem str2ab_of_bytes (b : List Nat) (h : b.all (fun v => v < 256) = true) :
    str2ab b = b := by
  induction b with
  | nil => rfl
  | cons x xs ih =>
    simp only [List.all_cons, Bool.and_eq_true, decide_eq_true_eq] at h
    simp only [str2ab, List.map_cons, List.cons.injEq]
    exact ⟨by omega, ih h.2⟩

/-- C4: for every byte sequence `b` whose values are all below 256,
`str2ab (ab2str b) = b`: the string/buffer codec round trip reconstructs the
original buffer exactly, same length and same bytes. -/
theorem codec_roundtrip (b : List Nat) (h : b.all (fun v => v < 256) = true) :
    str2ab (ab2str b) = b := by
  rw [ab2str_of_bytes b h, str2ab_of_bytes b h]

/-- Witness for C4 at the concrete buffer `[0, 1, 127, 255]`. -/
theorem codec_roundtrip_witness :
    str2ab (ab2str [0, 1, 127, 255]) = [0, 1, 127, 255] :=
  codec_roundtrip [0, 1, 127, 255] (by decide)

/-- C10: `str2ab` is total (it is a plain function on every code-unit
sequence), preserves the length of its input, and sets byte `i` to the
character code at position `i` reduced modulo 256, silently wrapping code
units above 255. -/
theorem str2ab_total_spec (s : List Nat) :
    (str2ab s).length = s.length ∧
    ∀ i, i < s.length → (str2ab s).getD i 0 = s.getD i 0 % 256 := by
  constructor
  · simp [str2ab]
  · intro i hi
    simp only [str2ab]
    rw [List.getD_eq_getElem _ _ (by simpa using hi), List.getD_eq_getElem _ _ hi]
    simp

/-- Witness for C10 at the concrete string `[72, 300, 65535]`: length is
preserved and the code unit 300 wraps to 44. -/
theorem str2ab_total_spec_witness :
    (str2ab [72, 300, 65535]).length = 3 ∧
    (str2ab [72, 300, 65535]).getD 1 0 = 300 % 256 :=
  ⟨(str2ab_total_spec [72, 300, 65535]).1,
   (str2ab_total_spec [72, 300, 65535]).2 1 (by decide)⟩

/-- C8: for every ciphertext byte buffer `c`,
`decodeBase64EncryptedMessage` inverts `encodeEncryptedMessageAsBase64`:
Base64 transport encoding of an encrypted message is lossless. -/
theorem ciphertext_base64_roundtrip (c : List Nat) (h : c.all (fun v => v < 256) = true) :
    Option.map decodeBase64EncryptedMessage (encodeEncryptedMessageAsBase64 c) = some c := by
  have hab : ab2str c = c := ab2str_of_bytes c h
  have henc : encodeEncryptedMessageAsBase64 c = some (b64encode c) := by
    unfold encodeEncryptedMessageAsBase64 btoa
    rw [hab, if_pos h]
  rw [henc]
  show some (decodeBase64EncryptedMessage (b64encode c)) = some c
  simp only [decodeBase64EncryptedMessage, atob]
  rw [b64_roundtrip c h, str2ab_of_bytes c h]

/-- Witness for C8 at the concrete ciphertext `[0, 77, 255, 1, 2]`. -/
theorem ciphertext_base64_roundtrip_witness :
    Option.map decodeBase64EncryptedMessage (encodeEncryptedMessageAsBase64 [0, 77, 255, 1, 2])
      = some [0, 77, 255, 1, 2] :=
  ciphertext_base64_roundtrip [0, 77, 255, 1, 2] (by decide)

/-- A thrown JavaScript `Error`, identified by its message. -/
structure JSError where
  message : String
  deriving DecidableEq, Repr

/-- The algorithm object passed to `subtle.importKey`:
`{name: "RSA-OAEP", hash: "SHA-256"}`. -/
structure Algorithm where
  name : String
  hash : String
  deriving DecidableEq, Repr

/-- A Web Crypto `CryptoKey` handle: its type (`"public"` or `"private"`),
the algorithm it is bound to, extractability, the allowed usages, and the
imported key material. -/
structure CryptoKey where
  type : String
  algorithm : Algorithm
  extractable : Bool
  usages : List String
  keyData : List Nat
  deriving DecidableEq, Repr

/-- Modelled from the spec: `window.crypto.subtle.importKey`.  Whether the
bytes are a structurally valid key of the expected format is decided by the
cryptographic provider, abstracted as the predicate `valid`; on success the
returned handle carries exactly the algorithm, extractability and usages
passed by the caller, with the key type derived from the import format
(`"spki"` gives a public key, `"pkcs8"` a private key). -/
def subtle_importKey (valid : String → List Nat → Bool) (format : String)
    (keyData : List Nat) (algorithm : Algorithm) (extractable : Bool)
    (keyUsages : List String) : Except JSError CryptoKey :=
  if valid format keyData then
    Except.ok ⟨if format = "spki" then "public" else "private",
      algorithm, extractable, keyUsages, keyData⟩
  else
    Except.error ⟨"DataError: key import failed"⟩

/-- `importPublicKey(pem)`: `atob` the Base64 text, convert to bytes with
`str2ab`, and `importKey("spki", ..., {name: "RSA-OAEP", hash: "SHA-256"},
true, ["encrypt"])`. -/
def importPublicKey (valid : String → List Nat → Bool) (pem : List Nat) :
    Except JSError CryptoKey :=
  let binaryDerString := atob pem
  let binaryDer := str2ab binaryDerString
  subtle_importKey valid "spki" binaryDer ⟨"RSA-OAEP", "SHA-256"⟩ true ["encrypt"]

/-- `importPrivateKey(pem)`: `atob` the Base64 text, convert to bytes with
`str2ab`, and `importKey("pkcs8", ..., {name: "RSA-OAEP", hash: "SHA-256"},
true, ["decrypt"])`. -/
def importPrivateKey (valid : String → List Nat → Bool) (pem : List Nat) :
    Except JSError CryptoKey :=
  let binaryDerString := atob pem
  let binaryDer := str2ab binaryDerString
  subtle_importKey valid "pkcs8" binaryDer ⟨"RSA-OAEP", "SHA-256"⟩ true ["decrypt"]

/-- The browser `localStorage` as far as this library touches it: the three
string-valued entries `privateKeyBase64`, `publicKeyBase64` and `ttl`
(`getItem` returns `null`, here `none`, for an absent entry). -/
structure Store where
  privateKeyBase64 : Option (List Nat)
  publicKeyBase64 : Option (List Nat)
  ttl : Option (List Nat)
  deriving DecidableEq, Repr

/-- Consumes the leading decimal digits of a string, left to right, into
the accumulator; stops at the first non-digit. -/
def parseDigits (acc : Nat) : List Nat → Nat
  | [] => acc
  | c :: rest => if 48 ≤ c ∧ c ≤ 57 then parseDigits (acc * 10 + (c - 48)) rest else acc

/-- Parses a non-empty run of leading decimal digits; `none` when the first
character is not a digit. -/
def parseDecimal : List Nat → Option Nat
  | [] => none
  | c :: rest => if 48 ≤ c ∧ c ≤ 57 then some (parseDigits (c - 48) rest) else none

/-- A JavaScript whitespace code unit (space, tab, newline, vertical tab,
form feed, carriage return). -/
def isJsWhitespace (c : Nat) : Bool :=
  c = 32 || c = 9 || c = 10 || c = 11 || c = 12 || c = 13

/-- Modelled from the spec: JavaScript `parseInt` applied to
`localStorage.getItem('ttl')`, whose stored value is a decimal-integer
string.  Leading whitespace and an optional sign are skipped, then a run of
decimal digits is parsed; when the argument is `null` (absent entry) or no
digits are found the result is `NaN`, here `none`.  (Radix prefixes such as
`0x` never occur in the stored decimal value and are not modelled.) -/
def jsParseInt : Option (List Nat) → Option Int
  | none => none
  | some s =>
    match s.dropWhile isJsWhitespace with
    | 43 :: rest => (parseDecimal rest).map Int.ofNat
    | 45 :: rest => (parseDecimal rest).map (fun n => -(Int.ofNat n))
    | t => (parseDecimal t).map Int.ofNat

/-- Modelled from the spec: the JavaScript `<` comparison between a number
and a possibly-`NaN` number (`parseInt` result); any comparison against
`NaN` is false. -/
def jsLtNum (a : Int) (b : Option Int) : Bool :=
  match b with
  | none => false
  | some b => a < b

/-- The value `fetchKeysFromLocalStorage` resolves with:
`{privateKey: <imported handle>, publicKey: <base64 text>}`. -/
structure LoadedKeys where
  privateKey : CryptoKey
  publicKey : List Nat
  deriving DecidableEq, Repr

/-- `fetchKeysFromLocalStorage()`: reads `privateKeyBase64` (throwing
`"private key not found"` when `null`), then `publicKeyBase64` (throwing
`"public key not found"` when `null`), then parses `ttl` with `parseInt`;
when `Date.now() < keyExpiration` it resolves with the imported private key
and the still-encoded public key, otherwise it throws `"keys expired"`.
`now` is `Date.now()` and `valid` abstracts the provider's key-material
check inside `importPrivateKey`. -/
def fetchKeysFromLocalStorage (valid : String → List Nat → Bool) (now : Int)
    (store : Store) : Except JSError LoadedKeys :=
  match store.privateKeyBase64 with
  | none => Except.error ⟨"private key not found"⟩
  | some privateKeyBase64 =>
    match store.publicKeyBase64 with
    | none => Except.error ⟨"public key not found"⟩
    | some publicKeyBase64 =>
      let keyExpiration := jsParseInt store.ttl
      if jsLtNum now keyExpiration then
        match importPrivateKey valid privateKeyBase64 with
        | Except.ok k => Except.ok ⟨k, publicKeyBase64⟩
        | Except.error e => Except.error e
      else
        Except.error ⟨"keys expired"⟩

/-- `exportPublicKeyToBase64(publicKey)`:
`window.btoa(ab2str(await subtle.exportKey("spki", publicKey)))`, with the
provider's `exportKey` abstracted as a parameter. -/
def exportPublicKeyToBase64
    (exportKey : String → CryptoKey → Except JSError (List Nat))
    (publicKey : CryptoKey) : Except JSError (List Nat) :=
  match exportKey "spki" publicKey with
  | Except.error e => Except.error e
  | Except.ok exported =>
    match btoa (ab2str exported) with
    | some b => Except.ok b
    | none => Except.error ⟨"InvalidCharacterError"⟩

/-- `exportPrivateKeyToBase64(privateKey)`:
`window.btoa(ab2str(await subtle.exportKey("pkcs8", privateKey)))`, with the
provider's `exportKey` abstracted as a parameter. -/
def exportPrivateKeyToBase64
    (exportKey : String → CryptoKey → Except JSError (List Nat))
    (privateKey : CryptoKey) : Except JSError (List Nat) :=
  match exportKey "pkcs8" privateKey with
  | Except.error e => Except.error e
  | Except.ok exported =>
    match btoa (ab2str exported) with
    | some b => Except.ok b
    | none => Except.error ⟨"InvalidCharacterError"⟩

/-- The argument of `saveKeysToLocalStorage`: a `CryptoKeyPair` with
`privateKey` and `publicKey` handles. -/
structure KeyPair where
  privateKey : CryptoKey
  publicKey : CryptoKey
  deriving DecidableEq, Repr

/-- The decimal rendering of an integral JavaScript number,
`expirationTimestamp.toString()`, as a code-unit string. -/
def numToString (n : Nat) : List Nat :=
  (Nat.toDigits 10 n).map Char.toNat

/-- `saveKeysToLocalStorage(keys)`: inside one `try`, exports the private
key, then the public key, computes `expirationTimestamp = Date.now() +
3600 * 1000` and writes the three entries; any error thrown on the way is
caught and logged (`console.error`), leaving the function without effect on
the store and its caller without an error.  The whole body runs before any
write, so a failed export writes nothing. -/
def saveKeysToLocalStorage
    (exportKey : String → CryptoKey → Except JSError (List Nat))
    (now : Nat) (keys : KeyPair) (store : Store) : Store :=
  match exportPrivateKeyToBase64 exportKey keys.privateKey with
  | Except.error _ => store
  | Except.ok exportedPrivateKey =>
    match exportPublicKeyToBase64 exportKey keys.publicKey with
    | Except.error _ => store
    | Except.ok exportedPublicKey =>
      let expirationTimestamp := now + 3600 * 1000
      { privateKeyBase64 := some exportedPrivateKey,
        publicKeyBase64 := some exportedPublicKey,
        ttl := some (numToString expirationTimestamp) }

instance {ε α : Type} [DecidableEq ε] [DecidableEq α] : DecidableEq (Except ε α) :=
  fun a b =>
  match a, b with
  | Except.ok x, Except.ok y =>
    if h : x = y then Decidable.isTrue (by rw [h])
    else Decidable.isFalse (fun he => h (by injection he))
  | Except.ok _, Except.error _ => Decidable.isFalse (fun he => Except.noConfusion he)
  | Except.error _, Except.ok _ => Decidable.isFalse (fun he => Except.noConfusion he)
  | Except.error x, Except.error y =>
    if h : x = y then Decidable.isTrue (by rw [h])
    else Decidable.isFalse (fun he => h (by injection he))

/-- C1: for a stored record with both key fields present (and an importable
private key, as every record written by a save contains), loading fails with
the `"keys expired"` error exactly when `now >= expiresAtMillis` and
succeeds exactly when `now < expiresAtMillis`; in particular at the expiry
instant itself the load fails as expired. -/
theorem fetch_expiry_boundary (valid : String → List Nat → Bool) (now e : Int)
    (store : Store) (p q : List Nat) (k : CryptoKey)
    (hp : store.privateKeyBase64 = some p)
    (hq : store.publicKeyBase64 = some q)
    (he : jsParseInt store.ttl = some e)
    (hk : importPrivateKey valid p = Except.ok k) :
    (now < e → fetchKeysFromLocalStorage valid now store = Except.ok ⟨k, q⟩) ∧
    (e ≤ now → fetchKeysFromLocalStorage valid now store = Except.error ⟨"keys expired"⟩) := by
  simp only [fetchKeysFromLocalStorage, hp, hq, he, jsLtNum, decide_eq_true_eq]
  constructor
  · intro hlt
    rw [if_pos hlt, hk]
  · intro hge
    rw [if_neg (by omega)]

/-- Witness for C1: at the concrete store
`{privateKeyBase64: "", publicKeyBase64: "A", ttl: "5"}` and `now = 5`,
the load performed exactly at the expiry instant fails as expired. -/
theorem fetch_expiry_boundary_witness :
    fetchKeysFromLocalStorage (fun _ _ => true) 5 ⟨some [], some [65], some [53]⟩ =
      Except.error ⟨"keys expired"⟩ :=
  (fetch_expiry_boundary (fun _ _ => true) 5 5 ⟨some [], some [65], some [53]⟩ [] [65]
    ⟨"private", ⟨"RSA-OAEP", "SHA-256"⟩, true, ["decrypt"], []⟩
    rfl rfl (by decide) (by decide)).2 (by decide)

/-- C3: loading fails with `"private key not found"` whenever the
private-key field is absent (regardless of the other fields), and with
`"public key not found"` whenever the private-key field is present but the
public-key field is absent; the private-key field is checked first. -/
theorem fetch_not_found_messages (valid : String → List Nat → Bool) (now : Int)
    (store : Store) :
    (store.privateKeyBase64 = none →
      fetchKeysFromLocalStorage valid now store = Except.error ⟨"private key not found"⟩) ∧
    (∀ p, store.privateKeyBase64 = some p → store.publicKeyBase64 = none →
      fetchKeysFromLocalStorage valid now store = Except.error ⟨"public key not found"⟩) := by
  constructor
  · intro hp
    simp only [fetchKeysFromLocalStorage, hp]
  · intro p hp hq
    simp only [fetchKeysFromLocalStorage, hp, hq]

/-- Witness for C3: loading from the empty store (no record ever saved)
reports the missing private key. -/
theorem fetch_not_found_messages_witness :
    fetchKeysFromLocalStorage (fun _ _ => true) 0 ⟨none, none, none⟩ =
      Except.error ⟨"private key not found"⟩ :=
  (fetch_not_found_messages (fun _ _ => true) 0 ⟨none, none, none⟩).1 rfl

/-- C9: when both key fields are present but the `ttl` entry is absent or
does not parse as an integer (`parseInt` gives `NaN`), the comparison
`now < NaN` is false and loading fails with the `"keys expired"` error, not
with a not-found error. -/
theorem fetch_bad_ttl_expired (valid : String → List Nat → Bool) (now : Int)
    (store : Store) (p q : List Nat)
    (hp : store.privateKeyBase64 = some p)
    (hq : store.publicKeyBase64 = some q)
    (ht : jsParseInt store.ttl = none) :
    fetchKeysFromLocalStorage valid now store = Except.error ⟨"keys expired"⟩ := by
  simp only [fetchKeysFromLocalStorage, hp, hq, ht, jsLtNum]
  rw [if_neg (by simp)]

/-- Witness for C9: both keys present, `ttl` entry absent, `now = 0`:
the load fails with `"keys expired"`. -/
theorem fetch_bad_ttl_expired_witness :
    fetchKeysFromLocalStorage (fun _ _ => true) 0 ⟨some [], some [], none⟩ =
      Except.error ⟨"keys expired"⟩ :=
  fetch_bad_ttl_expired (fun _ _ => true) 0 ⟨some [], some [], none⟩ [] [] rfl rfl rfl

/-- C5: `saveKeysToLocalStorage` never propagates an error to its caller
(in this embedding it returns the resulting store unconditionally, never an
exception), and when exporting either key fails the backing store is left
entirely unchanged: both exports run before the first write. -/
theorem save_swallows_export_errors
    (exportKey : String → CryptoKey → Except JSError (List Nat))
    (now : Nat) (keys : KeyPair) (store : Store)
    (h : (∃ e, exportPrivateKeyToBase64 exportKey keys.privateKey = Except.error e) ∨
         (∃ e, exportPublicKeyToBase64 exportKey keys.publicKey = Except.error e)) :
    saveKeysToLocalStorage exportKey now keys store = store := by
  rcases h with ⟨e, he⟩ | ⟨e, he⟩
  · simp only [saveKeysToLocalStorage, he]
  · cases hpriv : exportPrivateKeyToBase64 exportKey keys.privateKey with
    | error e2 => simp only [saveKeysToLocalStorage, hpriv]
    | ok priv => simp only [saveKeysToLocalStorage, hpriv, he]

/-- Witness for C5: a provider whose `exportKey` always throws leaves the
concrete store `{privateKeyBase64: "x"}` untouched. -/
theorem save_swallows_export_errors_witness :
    saveKeysToLocalStorage (fun _ _ => Except.error ⟨"boom"⟩) 7
      ⟨⟨"private", ⟨"RSA-OAEP", "SHA-256"⟩, true, ["decrypt"], []⟩,
       ⟨"public", ⟨"RSA-OAEP", "SHA-256"⟩, true, ["encrypt"], []⟩⟩
      ⟨some [120], none, none⟩ = ⟨some [120], none, none⟩ :=
  save_swallows_export_errors (fun _ _ => Except.error ⟨"boom"⟩) 7
    ⟨⟨"private", ⟨"RSA-OAEP", "SHA-256"⟩, true, ["decrypt"], []⟩,
     ⟨"public", ⟨"RSA-OAEP", "SHA-256"⟩, true, ["encrypt"], []⟩⟩
    ⟨some [120], none, none⟩ (Or.inl ⟨⟨"boom"⟩, rfl⟩)

/-- C6: on a successful save the store afterwards holds exactly the three
fields `privateKeyBase64`, `publicKeyBase64` and `ttl` (the `Store` type
has no others), with `ttl` the decimal-string rendering of
`now + 3600000`; whatever the store held before is overwritten, and the
only operation of the library that writes the store is this one
(`fetchKeysFromLocalStorage` has no store output). -/
theorem save_writes_record
    (exportKey : String → CryptoKey → Except JSError (List Nat))
    (now : Nat) (keys : KeyPair) (store : Store) (p q : List Nat)
    (hp : exportPrivateKeyToBase64 exportKey keys.privateKey = Except.ok p)
    (hq : exportPublicKeyToBase64 exportKey keys.publicKey = Except.ok q) :
    saveKeysToLocalStorage exportKey now keys store =
      { privateKeyBase64 := some p, publicKeyBase64 := some q,
        ttl := some (numToString (now + 3600000)) } := by
  simp only [saveKeysToLocalStorage, hp, hq]

/-- Witness for C6: a provider exporting the byte `0x01` for the private
key and `0x02` for the public key, at `now = 0`, writes the Base64 texts
`"AQ=="` and `"Ag=="` and the ttl string `"3600000"`. -/
theorem save_writes_record_witness :
    saveKeysToLocalStorage
      (fun fmt _ => if fmt = "pkcs8" then Except.ok [1] else Except.ok [2]) 0
      ⟨⟨"private", ⟨"RSA-OAEP", "SHA-256"⟩, true, ["decrypt"], []⟩,
       ⟨"public", ⟨"RSA-OAEP", "SHA-256"⟩, true, ["encrypt"], []⟩⟩
      ⟨none, none, none⟩ =
      ⟨some [65, 81, 61, 61], some [65, 103, 61, 61],
       some [51, 54, 48, 48, 48, 48, 48]⟩ := by
  have h := save_writes_record
    (fun fmt _ => if fmt = "pkcs8" then Except.ok [1] else Except.ok [2]) 0
    ⟨⟨"private", ⟨"RSA-OAEP", "SHA-256"⟩, true, ["decrypt"], []⟩,
     ⟨"public", ⟨"RSA-OAEP", "SHA-256"⟩, true, ["encrypt"], []⟩⟩
    ⟨none, none, none⟩ [65, 81, 61, 61] [65, 103, 61, 61] (by decide) (by decide)
  rw [h]
  decide

theorem importPublicKey_ok (valid : String → List Nat → Bool) (pem : List Nat)
    (k : CryptoKey) (h : importPublicKey valid pem = Except.ok k) :
    k = ⟨"public", ⟨"RSA-OAEP", "SHA-256"⟩, true, ["encrypt"], str2ab (atob pem)⟩ := by
  simp only [importPublicKey, subtle_importKey] at h
  split at h
  · injection h with h'
    exact h'.symm
  · exact Except.noConfusion h

theorem importPrivateKey_ok (valid : String → List Nat → Bool) (pem : List Nat)
    (k : CryptoKey) (h : importPrivateKey valid pem = Except.ok k) :
    k = ⟨"private", ⟨"RSA-OAEP", "SHA-256"⟩, true, ["decrypt"], str2ab (atob pem)⟩ := by
  simp only [importPrivateKey, subtle_importKey] at h
  split at h
  · injection h with h'
    exact h'.symm
  · exact Except.noConfusion h

/-- C7: every key handle successfully produced by `importPublicKey` allows
only the `encrypt` usage and every handle produced by `importPrivateKey`
allows only the `decrypt` usage, both bound to the fixed
RSA-OAEP / SHA-256 algorithm parameters. -/
theorem import_usages (valid : String → List Nat → Bool) (pem : List Nat)
    (k : CryptoKey) :
    (importPublicKey valid pem = Except.ok k →
      k.usages = ["encrypt"] ∧ k.algorithm = ⟨"RSA-OAEP", "SHA-256"⟩) ∧
    (importPrivateKey valid pem = Except.ok k →
      k.usages = ["decrypt"] ∧ k.algorithm = ⟨"RSA-OAEP", "SHA-256"⟩) := by
  constructor
  · intro h
    rw [importPublicKey_ok valid pem k h]
    exact ⟨rfl, rfl⟩
  · intro h
    rw [importPrivateKey_ok valid pem k h]
    exact ⟨rfl, rfl⟩

/-- Witness for C7: importing the empty public-key text under a provider
that accepts it yields a handle restricted to `encrypt` with the fixed
algorithm parameters. -/
theorem import_usages_witness :
    (⟨"public", ⟨"RSA-OAEP", "SHA-256"⟩, true, ["encrypt"], []⟩ : CryptoKey).usages
        = ["encrypt"] ∧
    (⟨"public", ⟨"RSA-OAEP", "SHA-256"⟩, true, ["encrypt"], []⟩ : CryptoKey).algorithm
        = ⟨"RSA-OAEP", "SHA-256"⟩ :=
  (import_usages (fun _ _ => true) []
    ⟨"public", ⟨"RSA-OAEP", "SHA-256"⟩, true, ["encrypt"], []⟩).1 (by decide)

/-- The UTF-8 encoding of one Unicode scalar value, as `TextEncoder`
produces on well-formed text. -/
def utf8EncodeChar (c : Char) : List Nat :=
  let n := c.toNat
  if n < 128 then [n]
  else if n < 2048 then [192 + n / 64, 128 + n % 64]
  else if n < 65536 then [224 + n / 4096, 128 + n / 64 % 64, 128 + n % 64]
  else [240 + n / 262144, 128 + n / 4096 % 64, 128 + n / 64 % 64, 128 + n % 64]

/-- Modelled from the spec: `new TextEncoder().encode(message)`, the UTF-8
encoding of the message, modelled over its Unicode scalar values. -/
def utf8Encode : List Char → List Nat
  | [] => []
  | c :: rest => utf8EncodeChar c ++ utf8Encode rest

/-- A call made against the Web Crypto provider, in the order
`encryptMessage` issues them. -/
inductive ProviderCall where
  | importKeyCall
  | encryptCall
  deriving DecidableEq, Repr

/-- Modelled from the spec: `window.crypto.subtle.encrypt` with
`{name: "RSA-OAEP"}` on a 2048-bit RSA-OAEP / SHA-256 key: the provider
rejects a key lacking the `encrypt` usage, accepts at most
`256 - 2*32 - 2 = 190` bytes of plaintext, and fails with its own
`OperationError` on longer data; ciphertext production for accepted data is
abstracted by `rsaEnc`. -/
def subtle_encrypt (rsaEnc : List Nat → List Nat) (key : CryptoKey)
    (data : List Nat) : Except JSError (List Nat) :=
  if "encrypt" ∈ key.usages then
    if data.length ≤ 190 then Except.ok (rsaEnc data)
    else Except.error ⟨"OperationError"⟩
  else Except.error ⟨"InvalidAccessError"⟩

/-- `encryptMessage(publicKeyBase64, message)`: awaits
`importPublicKey(publicKeyBase64)`, then awaits `subtle.encrypt` on the
UTF-8 encoding of the message; the function performs no message-length
check of its own.  The first component records which provider calls were
attempted, in order; the second is the settled result. -/
def encryptMessage (valid : String → List Nat → Bool)
    (rsaEnc : List Nat → List Nat) (publicKeyBase64 : List Nat)
    (message : List Char) : List ProviderCall × Except JSError (List Nat) :=
  match importPublicKey valid publicKeyBase64 with
  | Except.error e => ([ProviderCall.importKeyCall], Except.error e)
  | Except.ok publicKey =>
    ([ProviderCall.importKeyCall, ProviderCall.encryptCall],
     subtle_encrypt rsaEnc publicKey (utf8Encode message))

set_option maxRecDepth 4000 in
/-- C2 counterexample: at the concrete message of 191 `a` characters
(191 UTF-8 bytes) and an importable key, `encryptMessage` attempts the
cryptographic encrypt call — its attempted-call trace ends with the
encrypt call and the failure is that call's own error — refuting the claim
that the error is raised before the cryptographic encrypt call is
attempted. -/
theorem encrypt_oversize_counterexample :
    (utf8Encode (List.replicate 191 'a')).length = 191 ∧
    (encryptMessage (fun _ _ => true) (fun _ => []) [] (List.replicate 191 'a')).1
      = [ProviderCall.importKeyCall, ProviderCall.encryptCall] ∧
    (encryptMessage (fun _ _ => true) (fun _ => []) [] (List.replicate 191 'a')).2
      = Except.error ⟨"OperationError"⟩ := by
  decide

/-- C2 amended: with an importable 2048-bit public key, a message whose
UTF-8 encoding exceeds 190 bytes makes `encryptMessage` fail, but the
failure is the attempted cryptographic encrypt call's own rejection of the
oversized plaintext — no length check precedes the call; a message of at
most 190 UTF-8 bytes (in particular exactly 190) succeeds. -/
theorem encrypt_size_bound (valid : String → List Nat → Bool)
    (rsaEnc : List Nat → List Nat) (pk : List Nat) (message : List Char)
    (k : CryptoKey) (hk : importPublicKey valid pk = Except.ok k) :
    ((utf8Encode message).length > 190 →
      encryptMessage valid rsaEnc pk message =
        ([ProviderCall.importKeyCall, ProviderCall.encryptCall],
         Except.error ⟨"OperationError"⟩)) ∧
    ((utf8Encode message).length ≤ 190 →
      encryptMessage valid rsaEnc pk message =
        ([ProviderCall.importKeyCall, ProviderCall.encryptCall],
         Except.ok (rsaEnc (utf8Encode message)))) := by
  have hk' := importPublicKey_ok valid pk k hk
  constructor
  · intro hlen
    simp only [encryptMessage, hk, subtle_encrypt, hk']
    rw [if_pos (by simp), if_neg (by omega)]
  · intro hlen
    simp only [encryptMessage, hk, subtle_encrypt, hk']
    rw [if_pos (by simp), if_pos (by omega)]

set_option maxRecDepth 4000 in
/-- Witness for C2 (amended): the concrete message of exactly 190 `a`
characters (190 UTF-8 bytes) encrypts successfully. -/
theorem encrypt_size_bound_witness :
    encryptMessage (fun _ _ => true) (fun _ => [9]) [] (List.replicate 190 'a')
      = ([ProviderCall.importKeyCall, ProviderCall.encryptCall], Except.ok [9]) :=
  (encrypt_size_bound (fun _ _ => true) (fun _ => [9]) [] (List.replicate 190 'a')
    ⟨"public", ⟨"RSA-OAEP", "SHA-256"⟩, true, ["encrypt"], []⟩ (by decide)).2 (by decide)

end Kameroon
